import Mathlib

/-!
Verification of the CodespaceInfoCLI tool (src/codespaces.py) against its
specification.  The Python script is shallowly embedded: timestamps are
integers (seconds since the Unix epoch, UTC), ISO-8601 strings are modelled
by the instant they denote, and the record dictionaries are modelled by a
typed structure for the pure computations and by an association list for the
JSON renderer's field-injection behaviour.
-/

namespace CodespacesCLI

/-- Timestamps: seconds since the Unix epoch (UTC).  Python `datetime`
subtraction yields a `timedelta`; on this model the delta is the integer
difference in seconds. -/
abbrev Timestamp := Int

/-- The `repository` sub-object of a codespace record (only `name` is read). -/
structure Repository where
  name : String
deriving Repr, DecidableEq

/-- The `git_status` sub-object.  In the script the flags are read with
`.get`, so an absent flag behaves as `false` and absent counts as `0`;
the model folds that defaulting into the fields. -/
structure GitStatus where
  has_uncommitted_changes : Bool
  has_unpushed_changes : Bool
  ahead : Int
  behind : Int
deriving Repr, DecidableEq

/-- A codespace record, with exactly the fields the script reads.
`retention_expires_at` is the parsed ISO-8601 timestamp; `none` stands for an
absent, `null` or empty value (all falsy for the script's
`if not retention_expires_at` test). -/
structure Codespace where
  display_name : String
  repository : Repository
  state : String
  retention_expires_at : Option Timestamp
  last_used_at : Option Timestamp
  git_status : GitStatus
deriving Repr, DecidableEq

/-- Embedding of `calculate_expiration_info` (src/codespaces.py:93-132).
The dictionary access `codespace.get("retention_expires_at")` and the ISO
parsing are abstracted into the `Option Timestamp` argument.  `timedelta`
normalisation is `days = delta // 86400` (floor) and
`seconds = delta % 86400` (in `[0, 86400)`), which for the positive divisor
is `Int.fdiv` and `Int.emod`. -/
def calculate_expiration_info (now : Timestamp) (retention_expires_at : Option Timestamp) :
    Option Timestamp × Option String × String :=
  match retention_expires_at with
  | none => (none, none, "gray")
  | some expires_dt =>
    if expires_dt ≤ now then
      (some expires_dt, some "Expired", "red")
    else
      let delta := expires_dt - now
      let days := Int.fdiv delta 86400
      let secs := Int.emod delta 86400
      let hours := Int.fdiv secs 3600
      let time_str :=
        if days = 0 then
          if hours = 0 then
            toString (Int.fdiv secs 60) ++ "m"
          else
            toString hours ++ "h"
        else if days = 1 then
          "1 day"
        else
          toString days ++ " days"
      let color :=
        if days < 7 then "red"
        else if days < 14 then "yellow"
        else "green"
      (some expires_dt, some time_str, color)

theorem calc_fst (now : Timestamp) (r : Option Timestamp) :
    (calculate_expiration_info now r).1 = r := by
  match r with
  | none => rfl
  | some t =>
    simp only [calculate_expiration_info]
    split <;> rfl

theorem calc_future_snd (now t : Timestamp) (h : now < t) :
    (calculate_expiration_info now (some t)).2 =
      (let delta := t - now
       let days := Int.fdiv delta 86400
       let secs := Int.emod delta 86400
       let hours := Int.fdiv secs 3600
       (some (if days = 0 then
                if hours = 0 then toString (Int.fdiv secs 60) ++ "m"
                else toString hours ++ "h"
              else if days = 1 then "1 day"
              else toString days ++ " days"),
        if days < 7 then "red" else if days < 14 then "yellow" else "green")) := by
  simp only [calculate_expiration_info]
  rw [if_neg (not_le.mpr h)]

/-- Python truthiness of an optional string: `if s:` is true exactly for a
present, non-empty string. -/
def strTruthy : Option String → Bool
  | none => false
  | some s => !(s == "")

/-- `matchesAt pat cs` holds when `pat` is an initial segment of `cs`. -/
def matchesAt : List Char → List Char → Bool
  | [], _ => true
  | _ :: _, [] => false
  | p :: ps, c :: cs => p == c && matchesAt ps cs

/-- `charsContain pat cs` holds when `pat` occurs contiguously in `cs`. -/
def charsContain : List Char → List Char → Bool
  | p, [] => matchesAt p []
  | p, c :: cs => matchesAt p (c :: cs) || charsContain p cs

/-- Python `pat in s` substring containment. -/
def strContains (s pat : String) : Bool :=
  charsContain pat.toList s.toList

/-- The `repo` criterion (src/codespaces.py:177-180): when active (non-empty),
case-insensitive substring match against `repository.name`; when inactive,
everything passes. -/
def repoFilterPass (repo : Option String) (cs : Codespace) : Bool :=
  if strTruthy repo then
    strContains cs.repository.name.toLower ((repo.getD "").toLower)
  else true

/-- The `state` criterion (src/codespaces.py:182-183): when active,
case-insensitive equality with `state`; when inactive, everything passes. -/
def stateFilterPass (state : Option String) (cs : Codespace) : Bool :=
  if strTruthy state then cs.state.toLower == (state.getD "").toLower
  else true

/-- The body of the `--days` loop (src/codespaces.py:189-194): the record
passes when `calculate_expiration_info` yields a timestamp (a `datetime` is
always truthy) and the whole-day count of `expires_dt - now` is at most
`days`. -/
def daysPass (now : Timestamp) (d : Int) (cs : Codespace) : Bool :=
  match (calculate_expiration_info now cs.retention_expires_at).1 with
  | some expires_dt => decide (Int.fdiv (expires_dt - now) 86400 ≤ d)
  | none => false

/-- The `--days` criterion including its activation test
(`if days is not None`, src/codespaces.py:185). -/
def daysFilterPass (now : Timestamp) (days : Option Int) (cs : Codespace) : Bool :=
  match days with
  | none => true
  | some d => daysPass now d cs

/-- Embedding of `filter_codespaces` (src/codespaces.py:168-198): the three
optional criteria are applied in sequence (repo, then state, then days),
each narrowing the running list. -/
def filter_codespaces (now : Timestamp) (codespaces : List Codespace)
    (days : Option Int) (repo state : Option String) : List Codespace :=
  let filtered := codespaces
  let filtered :=
    if strTruthy repo then
      filtered.filter (fun cs => strContains cs.repository.name.toLower ((repo.getD "").toLower))
    else filtered
  let filtered :=
    if strTruthy state then
      filtered.filter (fun cs => cs.state.toLower == (state.getD "").toLower)
    else filtered
  match days with
  | none => filtered
  | some d => filtered.filter (fun cs => daysPass now d cs)

theorem filter_codespaces_eq (now : Timestamp) (l : List Codespace)
    (days : Option Int) (repo state : Option String) :
    filter_codespaces now l days repo state =
      ((l.filter (fun cs => repoFilterPass repo cs)).filter
        (fun cs => stateFilterPass state cs)).filter
          (fun cs => daysFilterPass now days cs) := by
  simp only [filter_codespaces, repoFilterPass, stateFilterPass, daysFilterPass]
  cases hrep : strTruthy repo <;> cases hst : strTruthy state <;> cases days <;>
    simp [List.filter_true]

theorem daysPass_true_iff (now : Timestamp) (d : Int) (cs : Codespace) :
    daysPass now d cs = true ↔
      ∃ t : Int, cs.retention_expires_at = some t ∧ Int.fdiv (t - now) 86400 ≤ d := by
  unfold daysPass
  rw [calc_fst]
  cases hr : cs.retention_expires_at <;> simp

/-- `datetime.max.replace(tzinfo=timezone.utc)`, the sentinel key used for
records with no expiration (src/codespaces.py:324): 9999-12-31 23:59:59 UTC
in seconds since the epoch. -/
def datetimeMax : Int := 253402300799

/-- Embedding of the entry point's `sort_key` (src/codespaces.py:321-325):
the expiration timestamp computed by `calculate_expiration_info`, or the
maximal sentinel when there is none. -/
def sort_key (now : Int) (cs : Codespace) : Int :=
  match (calculate_expiration_info now cs.retention_expires_at).1 with
  | none => datetimeMax
  | some t => t

/-- `filtered_codespaces.sort(key=sort_key)` (src/codespaces.py:327):
Python's `list.sort` is a stable comparison sort by the key, modelled by
stable insertion sort on the key order. -/
def sortCodespaces (now : Int) (l : List Codespace) : List Codespace :=
  l.insertionSort (fun a b => sort_key now a ≤ sort_key now b)

theorem sort_key_eq (now : Int) (cs : Codespace) :
    sort_key now cs =
      match cs.retention_expires_at with
      | none => datetimeMax
      | some t => t := by
  unfold sort_key
  rw [calc_fst]

theorem filter_key_orderedInsert {α : Type} (key : α → Int) (k : Int) (a : α) :
    ∀ s : List α,
      (List.orderedInsert (fun x y => key x ≤ key y) a s).filter (fun x => key x == k)
        = if key a = k then a :: s.filter (fun x => key x == k)
          else s.filter (fun x => key x == k)
  | [] => by
    by_cases h : key a = k <;> simp [List.orderedInsert, List.filter_cons, h]
  | b :: s => by
    simp only [List.orderedInsert]
    by_cases hab : key a ≤ key b
    · rw [if_pos hab]
      by_cases ha : key a = k <;> simp [List.filter_cons, ha]
    · rw [if_neg hab]
      have hrec := filter_key_orderedInsert key k a s
      by_cases ha : key a = k
      · have hb : ¬(key b = k) := by omega
        rw [if_pos ha] at hrec
        simp [List.filter_cons, hb, hrec, ha]
      · rw [if_neg ha] at hrec
        simp [List.filter_cons, hrec, ha]

theorem filter_key_insertionSort {α : Type} (key : α → Int) (k : Int) :
    ∀ l : List α,
      (List.insertionSort (fun x y => key x ≤ key y) l).filter (fun x => key x == k)
        = l.filter (fun x => key x == k)
  | [] => rfl
  | a :: l => by
    simp only [List.insertionSort]
    rw [filter_key_orderedInsert key k a, filter_key_insertionSort key k l]
    by_cases ha : key a = k <;> simp [List.filter_cons, ha]

theorem filter_append_filter_not {α : Type} (key : α → Int) (p : α → Bool) :
    ∀ l : List α, l.Pairwise (fun x y => key x ≤ key y) →
      (∀ a ∈ l, ∀ b ∈ l, p a = true → p b = false → key a < key b) →
      l.filter p ++ l.filter (fun x => !(p x)) = l
  | [], _, _ => rfl
  | a :: l, hp, hlt => by
    have hal := (List.pairwise_cons.mp hp).1
    have hpl := (List.pairwise_cons.mp hp).2
    cases hpa : p a
    · have hnone : ∀ b ∈ l, p b = false := by
        intro b hb
        cases hpb : p b
        · rfl
        · exfalso
          have h1 := hlt b (by simp [hb]) a (by simp) hpb hpa
          have h2 := hal b hb
          omega
      have h1 : l.filter p = [] :=
        List.filter_eq_nil_iff.mpr (fun b hb => by simp [hnone b hb])
      have h2 : l.filter (fun x => !(p x)) = l :=
        List.filter_eq_self.mpr (fun b hb => by simp [hnone b hb])
      simp [List.filter_cons, hpa, h1, h2]
    · have hih := filter_append_filter_not key p l hpl (by
        intro x hx y hy hpx hpy
        exact hlt x (by simp [hx]) y (by simp [hy]) hpx hpy)
      simp [List.filter_cons, hpa, hih]

/-- C5: the sorter is a stable ascending ordering by the expiration key:
the output is a permutation of the input, sorted by `sort_key` (no-expiration
records carry the maximal sentinel `datetimeMax`), records with equal keys
keep their relative input order, and (for real timestamps, i.e. strictly
below the sentinel) every record with no expiration comes after every record
with one. -/
theorem c5_sort_stable_ascending (now : Int) (l : List Codespace)
    (h : ∀ cs ∈ l, ∀ t : Int, cs.retention_expires_at = some t → t < datetimeMax) :
    List.Perm (sortCodespaces now l) l
    ∧ (sortCodespaces now l).Pairwise (fun a b => sort_key now a ≤ sort_key now b)
    ∧ (∀ k : Int, (sortCodespaces now l).filter (fun cs => sort_key now cs == k)
        = l.filter (fun cs => sort_key now cs == k))
    ∧ (sortCodespaces now l).filter (fun cs => cs.retention_expires_at.isSome)
        ++ (sortCodespaces now l).filter (fun cs => !cs.retention_expires_at.isSome)
      = sortCodespaces now l := by
  letI : IsTotal Codespace (fun a b => sort_key now a ≤ sort_key now b) :=
    ⟨fun a b => le_total _ _⟩
  letI : IsTrans Codespace (fun a b => sort_key now a ≤ sort_key now b) :=
    ⟨fun a b c h1 h2 => le_trans h1 h2⟩
  have hsorted : (sortCodespaces now l).Pairwise
      (fun a b => sort_key now a ≤ sort_key now b) :=
    List.sorted_insertionSort (fun a b => sort_key now a ≤ sort_key now b) l
  refine ⟨List.perm_insertionSort _ l, hsorted,
    fun k => filter_key_insertionSort (sort_key now) k l, ?_⟩
  refine filter_append_filter_not (sort_key now)
    (fun cs => cs.retention_expires_at.isSome) _ hsorted ?_
  intro a ha b hb hpa hpb
  have hpa' : a.retention_expires_at.isSome = true := hpa
  have hpb' : b.retention_expires_at.isSome = false := hpb
  have hamem : a ∈ l := (List.mem_insertionSort _).mp ha
  rcases hra : a.retention_expires_at with _ | t
  · rw [hra] at hpa'; simp at hpa'
  · have hka : sort_key now a = t := by rw [sort_key_eq, hra]
    have hkb : sort_key now b = datetimeMax := by
      rcases hrb : b.retention_expires_at with _ | u
      · rw [sort_key_eq, hrb]
      · rw [hrb] at hpb'; simp at hpb'
    rw [hka, hkb]
    exact h a hamem t hra

theorem c5_sort_stable_ascending_witness :
    (sortCodespaces 0
        [⟨"n", ⟨"r"⟩, "Shutdown", none, none, ⟨false, false, 0, 0⟩⟩,
         ⟨"a", ⟨"r"⟩, "Available", some 100, none, ⟨false, false, 0, 0⟩⟩,
         ⟨"b", ⟨"r"⟩, "Available", some 50, none, ⟨false, false, 0, 0⟩⟩]).filter
      (fun cs => cs.retention_expires_at.isSome)
      ++ (sortCodespaces 0
        [⟨"n", ⟨"r"⟩, "Shutdown", none, none, ⟨false, false, 0, 0⟩⟩,
         ⟨"a", ⟨"r"⟩, "Available", some 100, none, ⟨false, false, 0, 0⟩⟩,
         ⟨"b", ⟨"r"⟩, "Available", some 50, none, ⟨false, false, 0, 0⟩⟩]).filter
      (fun cs => !cs.retention_expires_at.isSome)
      = sortCodespaces 0
        [⟨"n", ⟨"r"⟩, "Shutdown", none, none, ⟨false, false, 0, 0⟩⟩,
         ⟨"a", ⟨"r"⟩, "Available", some 100, none, ⟨false, false, 0, 0⟩⟩,
         ⟨"b", ⟨"r"⟩, "Available", some 50, none, ⟨false, false, 0, 0⟩⟩] :=
  (c5_sort_stable_ascending 0
    [⟨"n", ⟨"r"⟩, "Shutdown", none, none, ⟨false, false, 0, 0⟩⟩,
     ⟨"a", ⟨"r"⟩, "Available", some 100, none, ⟨false, false, 0, 0⟩⟩,
     ⟨"b", ⟨"r"⟩, "Available", some 50, none, ⟨false, false, 0, 0⟩⟩]
    (by
      intro cs hcs t ht
      simp only [List.mem_cons, List.not_mem_nil, or_false] at hcs
      rcases hcs with rfl | rfl | rfl
      · exact Option.noConfusion ht
      · injection ht with h
        subst h
        decide
      · injection ht with h
        subst h
        decide)).2.2.2

/-- C1: with the `--days` filter active at bound `d ≥ 0`, a record passes
exactly when it has an expiration timestamp and the whole-day count (floor
division) of `expires_at - now` is at most `d`; in particular every
already-expired record (`expires_at ≤ now`) passes. -/
theorem c1_days_filter_semantics (now : Int) (l : List Codespace) (d : Int)
    (hd : 0 ≤ d) :
    (∀ cs : Codespace, cs ∈ filter_codespaces now l (some d) none none ↔
      cs ∈ l ∧ ∃ t : Int, cs.retention_expires_at = some t ∧ Int.fdiv (t - now) 86400 ≤ d)
    ∧ (∀ cs ∈ l, ∀ t : Int, cs.retention_expires_at = some t → t ≤ now →
        cs ∈ filter_codespaces now l (some d) none none) := by
  have heq : filter_codespaces now l (some d) none none =
      l.filter (fun cs => daysPass now d cs) := by
    rw [filter_codespaces_eq]
    simp [repoFilterPass, stateFilterPass, daysFilterPass, strTruthy, List.filter_true]
  constructor
  · intro cs
    rw [heq, List.mem_filter, daysPass_true_iff]
  · intro cs hcs t ht hle
    rw [heq, List.mem_filter]
    refine ⟨hcs, (daysPass_true_iff now d cs).mpr ⟨t, ht, ?_⟩⟩
    have hfd : Int.fdiv (t - now) 86400 = (t - now) / 86400 :=
      Int.fdiv_eq_ediv _ (by decide)
    rw [hfd]
    omega

theorem c1_days_filter_semantics_witness :
    (0 : Int) ≤ 0 ∧
      (⟨"a", ⟨"repo"⟩, "Available", some 3, none, ⟨false, false, 0, 0⟩⟩ : Codespace) ∈
        filter_codespaces 10
          [⟨"a", ⟨"repo"⟩, "Available", some 3, none, ⟨false, false, 0, 0⟩⟩]
          (some 0) none none :=
  ⟨by decide,
   (c1_days_filter_semantics 10
      [⟨"a", ⟨"repo"⟩, "Available", some 3, none, ⟨false, false, 0, 0⟩⟩] 0 (by decide)).2
     ⟨"a", ⟨"repo"⟩, "Available", some 3, none, ⟨false, false, 0, 0⟩⟩
     (by simp) 3 rfl (by decide)⟩

/-- C8: the three optional filters compose by logical AND, so
`filter_codespaces` equals a single pass with the conjunction of the three
criteria (making the result independent of application order); in
particular filtering by repo then state equals filtering by state then
repo. -/
theorem c8_filter_composition (now : Timestamp) (l : List Codespace)
    (days : Option Int) (repo state : Option String) :
    filter_codespaces now l days repo state =
      l.filter (fun cs =>
        repoFilterPass repo cs && stateFilterPass state cs && daysFilterPass now days cs)
    ∧ (l.filter (fun cs => repoFilterPass repo cs)).filter
        (fun cs => stateFilterPass state cs)
      = (l.filter (fun cs => stateFilterPass state cs)).filter
          (fun cs => repoFilterPass repo cs) := by
  constructor
  · rw [filter_codespaces_eq, List.filter_filter, List.filter_filter]
    refine List.filter_congr (fun cs _ => ?_)
    cases repoFilterPass repo cs <;> cases stateFilterPass state cs <;>
      cases daysFilterPass now days cs <;> rfl
  · rw [List.filter_filter, List.filter_filter]
    refine List.filter_congr (fun cs _ => ?_)
    cases repoFilterPass repo cs <;> cases stateFilterPass state cs <;> rfl

/-- C2: for a record with a future expiration, `calculate_expiration_info`
decomposes `expires_at - now` into whole days and the remainder's whole hours
by floor division, and labels the result `"<minutes>m"` when `days = 0` and
`hours = 0`, `"<hours>h"` when `days = 0` and `hours > 0`, `"1 day"` when
`days = 1`, and `"<days> days"` otherwise; a delta of exactly 23h59m
(86340 s) yields `"23h"`, not `"1 day"`. -/
theorem c2_label_floor_decomposition (now t days hours secs : Int) (h : now < t)
    (hdays : days = Int.fdiv (t - now) 86400)
    (hsecs : secs = Int.emod (t - now) 86400)
    (hhours : hours = Int.fdiv secs 3600) :
    (calculate_expiration_info now (some t)).2.1 =
      some (if days = 0 ∧ hours = 0 then toString (Int.fdiv secs 60) ++ "m"
            else if days = 0 ∧ 0 < hours then toString hours ++ "h"
            else if days = 1 then "1 day"
            else toString days ++ " days")
    ∧ (calculate_expiration_info 0 (some 86340)).2.1 = some "23h" := by
  subst hdays hsecs hhours
  refine ⟨?_, by decide⟩
  have h2 := congrArg Prod.fst (calc_future_snd now t h)
  simp only at h2
  rw [h2]
  have hsnn : 0 ≤ Int.emod (t - now) 86400 := Int.emod_nonneg _ (by decide)
  have hhnn : 0 ≤ Int.fdiv (Int.emod (t - now) 86400) 3600 :=
    Int.fdiv_nonneg hsnn (by decide)
  by_cases hd : Int.fdiv (t - now) 86400 = 0 <;>
    by_cases hh : Int.fdiv (Int.emod (t - now) 86400) 3600 = 0
  · simp [hd, hh]
  · have hpos : 0 < Int.fdiv (Int.emod (t - now) 86400) 3600 :=
      lt_of_le_of_ne hhnn (Ne.symm hh)
    simp [hd, hh, hpos]
  · simp [hd, hh]
  · simp [hd, hh]

/-- C3: for a record with a future expiration, the urgency colour is
determined solely by the whole-day count: `days < 7` gives red,
`7 ≤ days < 14` gives yellow and `days ≥ 14` gives green; in particular
`days = 6` is red, `days = 7` and `days = 13` are yellow, and `days = 14`
is green. -/
theorem c3_urgency_thresholds (now t days : Int) (h : now < t)
    (hdays : days = Int.fdiv (t - now) 86400) :
    (calculate_expiration_info now (some t)).2.2 =
      (if days < 7 then "red" else if days < 14 then "yellow" else "green")
    ∧ (calculate_expiration_info 0 (some 518400)).2.2 = "red"
    ∧ (calculate_expiration_info 0 (some 604800)).2.2 = "yellow"
    ∧ (calculate_expiration_info 0 (some 1123200)).2.2 = "yellow"
    ∧ (calculate_expiration_info 0 (some 1209600)).2.2 = "green" := by
  subst hdays
  refine ⟨?_, by decide, by decide, by decide, by decide⟩
  have h2 := congrArg Prod.snd (calc_future_snd now t h)
  simp only at h2
  rw [h2]

/-- C4: with no `retention_expires_at` the calculator returns no timestamp,
no label and urgency gray; with a parsed expiration satisfying
`expires_at ≤ now` it returns the parsed timestamp, the label `"Expired"`
and urgency red. -/
theorem c4_gray_and_expired (now t : Timestamp) :
    calculate_expiration_info now none = (none, none, "gray")
    ∧ (t ≤ now → calculate_expiration_info now (some t) = (some t, some "Expired", "red")) := by
  refine ⟨rfl, fun h => ?_⟩
  simp only [calculate_expiration_info]
  rw [if_pos h]

theorem c2_label_floor_decomposition_witness :
    (0 : Int) < 86340 ∧ (calculate_expiration_info 0 (some 86340)).2.1 = some "23h" :=
  ⟨by decide,
   (c2_label_floor_decomposition 0 86340 0 23 86340 (by decide) (by decide) (by decide)
      (by decide)).2⟩

theorem c3_urgency_thresholds_witness :
    (0 : Int) < 518400 ∧ (calculate_expiration_info 0 (some 518400)).2.2 = "red" :=
  ⟨by decide, (c3_urgency_thresholds 0 518400 6 (by decide) (by decide)).2.1⟩

theorem c4_gray_and_expired_witness :
    calculate_expiration_info 5 none = (none, none, "gray")
    ∧ calculate_expiration_info 5 (some 3) = (some 3, some "Expired", "red") :=
  ⟨(c4_gray_and_expired 5 3).1, (c4_gray_and_expired 5 3).2 (by decide)⟩

/-- Embedding of `format_git_status` (src/codespaces.py:146-165): parts are
appended in source order (uncommitted, unpushed, ahead, behind) and joined
with `", "`, with `"clean"` when no part applies. -/
def format_git_status (gs : GitStatus) : String :=
  let parts : List String := []
  let parts := if gs.has_uncommitted_changes then parts ++ ["uncommitted"] else parts
  let parts := if gs.has_unpushed_changes then parts ++ ["unpushed"] else parts
  let parts := if gs.ahead > 0 then parts ++ ["↑" ++ toString gs.ahead] else parts
  let parts := if gs.behind > 0 then parts ++ ["↓" ++ toString gs.behind] else parts
  if parts.isEmpty then "clean" else String.intercalate ", " parts

/-- The specification's description of the git-status string: the parts whose
condition holds, in the fixed order uncommitted, unpushed, `↑<ahead>`,
`↓<behind>`. -/
def gitStatusSpecParts (gs : GitStatus) : List String :=
  (if gs.has_uncommitted_changes then ["uncommitted"] else [])
    ++ (if gs.has_unpushed_changes then ["unpushed"] else [])
    ++ (if gs.ahead > 0 then ["↑" ++ toString gs.ahead] else [])
    ++ (if gs.behind > 0 then ["↓" ++ toString gs.behind] else [])

/-- C9: the formatted git-status string joins, in the fixed order
uncommitted, unpushed, `↑<ahead>`, `↓<behind>`, exactly the parts whose
condition holds, separated by `", "`, and is `"clean"` when none applies;
`{uncommitted, ahead = 2}` gives `"uncommitted, ↑2"` and the all-false/zero
status gives `"clean"`. -/
theorem c9_git_status_format (gs : GitStatus) :
    format_git_status gs =
      (if gitStatusSpecParts gs = [] then "clean"
       else String.intercalate ", " (gitStatusSpecParts gs))
    ∧ format_git_status ⟨true, false, 2, 0⟩ = "uncommitted, ↑2"
    ∧ format_git_status ⟨false, false, 0, 0⟩ = "clean" := by
  refine ⟨?_, by decide, by decide⟩
  rcases gs with ⟨u, p, ah, bh⟩
  cases u <;> cases p <;> by_cases h1 : ah > 0 <;> by_cases h2 : bh > 0 <;>
    simp [format_git_status, gitStatusSpecParts, h1, h2]

/-- The lines printed by `get_github_token` when no token can be resolved
(src/codespaces.py:41-58), with the rich markup kept verbatim. -/
def tokenGuidanceLines : List String :=
  ["[red]Error:[/red] No GitHub token provided.",
   "\nPlease provide a token using one of these methods:",
   "1. Pass it as a parameter: [cyan]codespaces --token YOUR_TOKEN[/cyan]",
   "2. Set it in your environment: [cyan]export GITHUB_TOKEN=YOUR_TOKEN[/cyan]",
   "3. Create a .env file with: [cyan]GITHUB_TOKEN=YOUR_TOKEN[/cyan]",
   "\n[yellow]Note:[/yellow] The token should be a \x27Personal access token (classic)\x27 with:",
   "  - \x27codespace\x27 permission enabled",
   "  - Authorization for any organization that owns your codespaces"]

/-- The lines printed on an HTTP 401 (src/codespaces.py:79-84). -/
def unauthorizedLines : List String :=
  ["[red]Error:[/red] Invalid token or insufficient permissions.",
   "\nEnsure your token has \x27codespace\x27 permission and is authorized for the organization."]

/-- Embedding of `get_github_token` (src/codespaces.py:34-61): the explicit
argument wins when truthy (present and non-empty), otherwise the
`GITHUB_TOKEN` environment variable (the `.env` file loaded at startup only
pre-populates that variable); with neither, the guidance is printed and
`typer.Exit(1)` is raised, modelled as `Except.error 1`. -/
def get_github_token (token env_github_token : Option String) : Except Nat String :=
  if strTruthy token then Except.ok (token.getD "")
  else if strTruthy env_github_token then Except.ok (env_github_token.getD "")
  else Except.error 1

/-- The single HTTP response the script can observe: status code, reason
phrase, and the decoded JSON body abstracted as the `"codespaces"` list. -/
structure HttpResponse where
  status : Nat
  reason : String
  codespaces : List Codespace
deriving Repr, DecidableEq

/-- `str(e)` for the `requests.exceptions.HTTPError` built by
`Response.raise_for_status`: `"<status> Client Error: <reason> for url: <url>"`
for 4xx and `"<status> Server Error: ..."` for 5xx. -/
def httpErrorText (r : HttpResponse) : String :=
  toString r.status ++
    (if r.status < 500 then " Client Error: " else " Server Error: ") ++
    r.reason ++ " for url: https://api.github.com/user/codespaces"

/-- Embedding of `fetch_codespaces` (src/codespaces.py:64-90):
`raise_for_status` raises `HTTPError` exactly for statuses 400-599; 401 is
special-cased with the scope guidance, any other 4xx/5xx prints the error
text; a non-raising status returns `response.json()`, abstracted as the
decoded record list.  Transport failures (the `RequestException` branch) are
outside this model, which assumes a response was received. -/
def fetch_codespaces (r : HttpResponse) : Except (List String) (List Codespace) :=
  if 400 ≤ r.status ∧ r.status < 600 then
    if r.status = 401 then Except.error unauthorizedLines
    else Except.error ["[red]Error:[/red] GitHub API error: " ++ httpErrorText r]
  else Except.ok r.codespaces

/-- Observable outcome of one invocation: final process exit status, how many
HTTP requests were sent, and the diagnostic lines printed on the early-exit
paths (the success path's rendered table/JSON is modelled separately by the
renderer functions). -/
structure RunResult where
  exitCode : Nat
  networkCalls : Nat
  printed : List String
deriving Repr, DecidableEq

/-- Embedding of `main` (src/codespaces.py:269-333) up to rendering: resolve
the token (exit 1 with guidance, zero requests, when missing), issue the one
`requests.get` (the sole network operation, counted once on every path that
reaches it — there is no retry loop), exit 1 with the fetch diagnostics on
`HTTPError`, exit 0 early when the list is empty, else filter/sort/render
and return normally (exit 0). -/
def mainRun (token env_github_token : Option String) (resp : HttpResponse) : RunResult :=
  match get_github_token token env_github_token with
  | Except.error code => ⟨code, 0, tokenGuidanceLines⟩
  | Except.ok _ =>
    match fetch_codespaces resp with
    | Except.error msgs => ⟨1, 1, msgs⟩
    | Except.ok codespaces =>
      if codespaces.isEmpty then ⟨0, 1, ["[yellow]No codespaces found.[/yellow]"]⟩
      else ⟨0, 1, []⟩

/-- C6: the credential resolver returns the explicit token when non-empty,
else the `GITHUB_TOKEN` environment value when non-empty, and otherwise the
run prints the guidance lines and terminates with the non-zero exit status 1
having made zero network calls. -/
theorem c6_token_precedence (token env : Option String) (resp : HttpResponse) :
    (strTruthy token = true → get_github_token token env = Except.ok (token.getD ""))
    ∧ (strTruthy token = false → strTruthy env = true →
        get_github_token token env = Except.ok (env.getD ""))
    ∧ (strTruthy token = false → strTruthy env = false →
        mainRun token env resp = ⟨1, 0, tokenGuidanceLines⟩
        ∧ (mainRun token env resp).exitCode ≠ 0
        ∧ tokenGuidanceLines ≠ []) := by
  refine ⟨fun h1 => ?_, fun h1 h2 => ?_, fun h1 h2 => ?_⟩
  · unfold get_github_token
    rw [if_pos h1]
  · unfold get_github_token
    rw [if_neg (by simp [h1]), if_pos h2]
  · have hg : get_github_token token env = Except.error 1 := by
      unfold get_github_token
      rw [if_neg (by simp [h1]), if_neg (by simp [h2])]
    have hm : mainRun token env resp = ⟨1, 0, tokenGuidanceLines⟩ := by
      unfold mainRun
      rw [hg]
    exact ⟨hm, by rw [hm]; decide, by decide⟩

theorem c6_token_precedence_witness :
    strTruthy (none : Option String) = false
    ∧ mainRun none none ⟨200, "OK", []⟩ = ⟨1, 0, tokenGuidanceLines⟩ :=
  ⟨rfl, ((c6_token_precedence none none ⟨200, "OK", []⟩).2.2 rfl rfl).1⟩

/-- C7 fails as stated: status 300 is not 2xx, yet `raise_for_status` raises
only for 400-599, so the script does not abort — the 300 response's JSON
body is consumed and the run exits 0 (here with the empty-list notice),
not 1. -/
theorem c7_counterexample :
    ¬(200 ≤ (300 : Nat) ∧ (300 : Nat) ≤ 299)
    ∧ mainRun (some "tok") none ⟨300, "Multiple Choices", []⟩
        = ⟨0, 1, ["[yellow]No codespaces found.[/yellow]"]⟩
    ∧ (mainRun (some "tok") none ⟨300, "Multiple Choices", []⟩).exitCode ≠ 1 := by
  exact ⟨by decide, by decide, by decide⟩

/-- C7 (amended): a 401 response makes the run print the token-scope guidance
and exit with status 1 after exactly one request; any other status in
400..599 likewise exits 1 after exactly one request, printing the API error
text (status and reason).  Statuses outside 400..599 do not raise. -/
theorem c7_http_error_aborts (tok : String) (env : Option String) (resp : HttpResponse)
    (htok : tok ≠ "") :
    (resp.status = 401 →
      mainRun (some tok) env resp = ⟨1, 1, unauthorizedLines⟩)
    ∧ (400 ≤ resp.status → resp.status < 600 → resp.status ≠ 401 →
      mainRun (some tok) env resp =
        ⟨1, 1, ["[red]Error:[/red] GitHub API error: " ++ httpErrorText resp]⟩) := by
  have hg : get_github_token (some tok) env = Except.ok tok := by
    unfold get_github_token
    rw [if_pos (by simp [strTruthy, htok])]
    rfl
  constructor
  · intro h401
    unfold mainRun
    rw [hg]
    unfold fetch_codespaces
    rw [if_pos ⟨by omega, by omega⟩, if_pos h401]
  · intro h4 h6 hne
    unfold mainRun
    rw [hg]
    unfold fetch_codespaces
    rw [if_pos ⟨h4, h6⟩, if_neg hne]

theorem c7_http_error_aborts_witness :
    "tok" ≠ "" ∧
      mainRun (some "tok") none ⟨401, "Unauthorized", []⟩ = ⟨1, 1, unauthorizedLines⟩ :=
  ⟨by decide,
   (c7_http_error_aborts "tok" none ⟨401, "Unauthorized", []⟩ (by decide)).1 rfl⟩

/-- A JSON value as stored in a record dictionary.  ISO-8601 timestamp
strings are modelled by `tstamp` (the instant they denote); nested arrays
and objects are carried opaquely. -/
inductive Jval where
  | null
  | bool (b : Bool)
  | num (n : Int)
  | str (s : String)
  | tstamp (t : Int)
  | arr (elems : List Jval)
  | obj (fields : List (String × Jval))

/-- A record as a Python dict: an association list with unique keys in
insertion order. -/
abbrev JsonRecord := List (String × Jval)

/-- Python `d.get(k)` / `d[k]`: the value at the first matching key. -/
def dictGet : JsonRecord → String → Option Jval
  | [], _ => none
  | p :: d, k => if p.1 == k then some p.2 else dictGet d k

/-- Python `d[k] = v`: replace the value in place when the key exists,
else append the new key at the end (dict insertion order). -/
def dictSet : JsonRecord → String → Jval → JsonRecord
  | [], k, v => [(k, v)]
  | p :: d, k, v => if p.1 == k then (k, v) :: d else p :: dictSet d k v

/-- `codespace.get("retention_expires_at")` followed by the script's
falsiness test and ISO parse: `tstamp` stands for a non-empty ISO string;
`null` or an absent key give `none`.  (The API schema sends string-or-null,
so no other shape reaches the parse.) -/
def recRetention (cs : JsonRecord) : Option Int :=
  match dictGet cs "retention_expires_at" with
  | some (Jval.tstamp t) => some t
  | _ => none

/-- The per-record mutation in `print_codespaces_json`
(src/codespaces.py:261-264): store the relative label under `_expires_in`
(null when absent) and the ISO expiration under `_expires_timestamp`
(null when absent). -/
def addExpirationFields (now : Int) (cs : JsonRecord) : JsonRecord :=
  let info := calculate_expiration_info now (recRetention cs)
  let cs1 := dictSet cs "_expires_in"
    (match info.2.1 with
     | some s => Jval.str s
     | none => Jval.null)
  dictSet cs1 "_expires_timestamp"
    (match info.1 with
     | some t => Jval.tstamp t
     | none => Jval.null)

/-- Embedding of `print_codespaces_json` (src/codespaces.py:258-266) as the
record list it serialises: each record with the two computed fields
injected. -/
def print_codespaces_json (now : Int) (codespaces : List JsonRecord) : List JsonRecord :=
  codespaces.map (fun cs => addExpirationFields now cs)

theorem dictGet_dictSet_self (k : String) (v : Jval) :
    ∀ d : JsonRecord, dictGet (dictSet d k v) k = some v
  | [] => by simp [dictSet, dictGet]
  | p :: d => by
    by_cases hp : p.1 = k
    · simp [dictSet, dictGet, hp]
    · simp [dictSet, dictGet, hp, dictGet_dictSet_self k v d]

theorem dictGet_dictSet_ne (k k' : String) (v : Jval) (h : k' ≠ k) :
    ∀ d : JsonRecord, dictGet (dictSet d k v) k' = dictGet d k'
  | [] => by simp [dictSet, dictGet, Ne.symm h]
  | p :: d => by
    by_cases hp : p.1 = k
    · simp [dictSet, dictGet, hp, Ne.symm h]
    · simp [dictSet, dictGet, hp, dictGet_dictSet_ne k k' v h d]

theorem dictGet_dictSet_isSome (d : JsonRecord) (k k' : String) (v : Jval) :
    (dictGet (dictSet d k v) k').isSome = true →
      k' = k ∨ (dictGet d k').isSome = true := by
  by_cases h : k' = k
  · exact fun _ => Or.inl h
  · intro hs
    right
    rwa [dictGet_dictSet_ne k k' v h d] at hs

/-- C10: the JSON renderer maps each record to the same record with exactly
the two keys `_expires_in` (the relative label, or null) and
`_expires_timestamp` (the ISO expiration, or null) set; every other key's
value is unchanged, and no further key appears in the output. -/
theorem c10_json_renderer_frame (now : Int) (records : List JsonRecord)
    (cs : JsonRecord) (k : String)
    (hk1 : k ≠ "_expires_in") (hk2 : k ≠ "_expires_timestamp") :
    print_codespaces_json now records = records.map (addExpirationFields now)
    ∧ dictGet (addExpirationFields now cs) k = dictGet cs k
    ∧ dictGet (addExpirationFields now cs) "_expires_in" =
        some (match (calculate_expiration_info now (recRetention cs)).2.1 with
              | some s => Jval.str s
              | none => Jval.null)
    ∧ dictGet (addExpirationFields now cs) "_expires_timestamp" =
        some (match (calculate_expiration_info now (recRetention cs)).1 with
              | some t => Jval.tstamp t
              | none => Jval.null)
    ∧ (∀ k2 : String, (dictGet (addExpirationFields now cs) k2).isSome = true →
        k2 = "_expires_in" ∨ k2 = "_expires_timestamp" ∨ (dictGet cs k2).isSome = true) := by
  refine ⟨rfl, ?_, ?_, ?_, ?_⟩
  · unfold addExpirationFields
    rw [dictGet_dictSet_ne _ _ _ hk2, dictGet_dictSet_ne _ _ _ hk1]
  · unfold addExpirationFields
    rw [dictGet_dictSet_ne _ _ _ (by decide), dictGet_dictSet_self]
  · unfold addExpirationFields
    rw [dictGet_dictSet_self]
  · intro k2 hs
    unfold addExpirationFields at hs
    rcases dictGet_dictSet_isSome _ _ _ _ hs with h2 | h2
    · exact Or.inr (Or.inl h2)
    · rcases dictGet_dictSet_isSome _ _ _ _ h2 with h3 | h3
      · exact Or.inl h3
      · exact Or.inr (Or.inr h3)

theorem c10_json_renderer_frame_witness :
    ("display_name" ≠ "_expires_in"
      ∧ dictGet (addExpirationFields 0
          [("display_name", Jval.str "x"), ("retention_expires_at", Jval.tstamp 100)])
          "display_name"
        = dictGet [("display_name", Jval.str "x"), ("retention_expires_at", Jval.tstamp 100)]
            "display_name") :=
  ⟨by decide,
   (c10_json_renderer_frame 0 []
      [("display_name", Jval.str "x"), ("retention_expires_at", Jval.tstamp 100)]
      "display_name" (by decide) (by decide)).2.1⟩

end CodespacesCLI
